import Mathlib

/-!
Verification development for the GalaScan Selenium scraper
(`scripts/selenium-scrape-galascan.py`).

The script drives a browser to a wallet page, extracts token balances and
transaction records by regex heuristics over rendered element text, and
persists the result.  This file gives a shallow embedding of the script's
data model and operations:

* text is `List Char`; the Python regexes used by the script
  (`0x[a-fA-F0-9]{64}`, the three date patterns, the keyword search, and the
  amount+symbol grammar `([\d,]+\.?\d*)\s*(GALA|GUSDC|GWETH|GUSDT)`) are
  modelled as executable scanners whose backtracking behaviour agrees with
  Python `re` on these particular patterns;
* browser queries and attribute reads are modelled as `Except Unit`
  results supplied by a `Driver` value: `.error ()` stands for a raised
  exception (stale element, unresolvable attribute, ...);
* Python `float(...)` applied to an amount group is `parseAmount`, which
  fails (raises) exactly when the comma-stripped group contains no digit;
* the control flow of `extract_wallet_data`, `extract_transactions`,
  `parse_transaction_element`, `run`, the scroll loop of
  `scrape_wallet_page`, and the URL construction are each translated
  directly from the source, including which regions are wrapped in
  `try/except` and which are not.
-/

/-! ### Character classes (ASCII, as used by the script's regexes) -/

/-- `\d` of the script's regexes (ASCII digit). -/
def isDigitB (c : Char) : Bool := 48 ≤ c.toNat && c.toNat ≤ 57

/-- The character class `[\d,]` of the amount grammar. -/
def isDigitComma (c : Char) : Bool := isDigitB c || c = ','

/-- `\s` (Python ASCII whitespace: space, tab, LF, VT, FF, CR). -/
def isSpace (c : Char) : Bool := c.toNat == 32 || (9 ≤ c.toNat && c.toNat ≤ 13)

/-- `[a-fA-F0-9]`, the hash hex-digit class. -/
def isHexDigit (c : Char) : Bool :=
  (48 ≤ c.toNat && c.toNat ≤ 57) || (97 ≤ c.toNat && c.toNat ≤ 102) ||
    (65 ≤ c.toNat && c.toNat ≤ 70)

/-- ASCII lowercasing on code points, used to model `re.IGNORECASE`. -/
def lowerN (c : Char) : Nat :=
  if 65 ≤ c.toNat && c.toNat ≤ 90 then c.toNat + 32 else c.toNat

/-- Case-insensitive character comparison (`re.IGNORECASE`). -/
def eqCI (p c : Char) : Bool := lowerN p == lowerN c

/-- Python `str.upper` on one ASCII character (`token.upper()` in the script). -/
def upperC (c : Char) : Char :=
  if 97 ≤ c.toNat && c.toNat ≤ 122 then Char.ofNat (c.toNat - 32) else c

/-- Python `str.upper` (`match.group(2).upper()`). -/
def upperList (s : List Char) : List Char := s.map upperC

/-! ### Literal and case-insensitive matching helpers -/

/-- Match the literal pattern `pat` case-insensitively at the head of `cs`;
return the matched slice of the input (original case) and the rest. -/
def matchCI : List Char → List Char → Option (List Char × List Char)
  | [], cs => some ([], cs)
  | _ :: _, [] => none
  | p :: ps, c :: cs =>
    if eqCI p c then (matchCI ps cs).map (fun m => (c :: m.1, m.2)) else none

/-- Case-insensitive prefix test. -/
def prefixCI : List Char → List Char → Bool
  | [], _ => true
  | _ :: _, [] => false
  | p :: ps, c :: cs => eqCI p c && prefixCI ps cs

/-- Case-insensitive substring test: `re.search` of a literal alternation
branch under `IGNORECASE`. -/
def containsSubCI (pat : List Char) : List Char → Bool
  | [] => pat.isEmpty
  | c :: cs => prefixCI pat (c :: cs) || containsSubCI pat cs

/-- Case-sensitive substring test: Python `needle in haystack`. -/
def containsSub (pat : List Char) : List Char → Bool
  | [] => pat.isEmpty
  | c :: cs => pat.isPrefixOf (c :: cs) || containsSub pat cs

/-! ### `re.search` scaffolding -/

/-- `re.search`: try the anchored matcher `m` at every position, leftmost
match wins. -/
def searchWith (m : List Char → Option (List Char)) : List Char → Option (List Char)
  | [] => none
  | c :: cs =>
    match m (c :: cs) with
    | some r => some r
    | none => searchWith m cs

/-! ### The hash pattern `0x[a-fA-F0-9]{64}` -/

/-- Anchored match of `0x[a-fA-F0-9]{64}`. -/
def hashAt : List Char → Option (List Char)
  | '0' :: 'x' :: rest =>
    if ((rest.take 64).length == 64) && (rest.take 64).all isHexDigit then
      some ('0' :: 'x' :: rest.take 64)
    else none
  | _ => none

/-- `re.search(r'0x[a-fA-F0-9]{64}', text)` (line 176 of the script). -/
def searchHash (t : List Char) : Option (List Char) := searchWith hashAt t

/-- The shape asserted by the spec for hash values: `"0x"` followed by
exactly 64 hex digits. -/
def isHashFormat : List Char → Bool
  | '0' :: 'x' :: r => (r.length == 64) && r.all isHexDigit
  | _ => false

/-! ### The three date patterns (lines 181-191) -/

/-- Anchored match of `\d{4}-\d{2}-\d{2}`. -/
def isoAt : List Char → Option (List Char)
  | a :: b :: c :: d :: '-' :: e :: f :: '-' :: g :: h :: _ =>
    if isDigitB a && isDigitB b && isDigitB c && isDigitB d && isDigitB e &&
        isDigitB f && isDigitB g && isDigitB h then
      some [a, b, c, d, '-', e, f, '-', g, h]
    else none
  | _ => none

/-- `\d{1,2}/`: one or two digits followed by a slash (the greedy/backtracking
behaviour of `\d{1,2}/` collapses to this deterministic form because a digit
can never satisfy the following `/`). -/
def mdPart : List Char → Option (List Char × List Char)
  | a :: b :: rest =>
    if isDigitB a then
      if isDigitB b then
        match rest with
        | '/' :: r2 => some ([a, b, '/'], r2)
        | _ => none
      else if b = '/' then some ([a, '/'], rest)
      else none
    else none
  | _ => none

/-- Anchored match of `\d{1,2}/\d{1,2}/\d{4}`. -/
def slashAt (cs : List Char) : Option (List Char) :=
  match mdPart cs with
  | none => none
  | some (m1, r1) =>
    match mdPart r1 with
    | none => none
    | some (m2, r2) =>
      match r2 with
      | a :: b :: c :: d :: _ =>
        if isDigitB a && isDigitB b && isDigitB c && isDigitB d then
          some (m1 ++ m2 ++ [a, b, c, d])
        else none
      | _ => none

/-- Anchored match of `(\d+)\s*(minute|hour|day)s?\s*ago` under
`IGNORECASE`.  The only real backtracking point of this pattern is the
optional `s`, which is tried greedily first, exactly as Python does. -/
def relAt (cs : List Char) : Option (List Char) :=
  let ds := cs.takeWhile isDigitB
  let r1 := cs.dropWhile isDigitB
  if ds.isEmpty then none
  else
    let w1 := r1.takeWhile isSpace
    let r2 := r1.dropWhile isSpace
    let unit :=
      match matchCI ("minute".data) r2 with
      | some u => some u
      | none =>
        match matchCI ("hour".data) r2 with
        | some u => some u
        | none => matchCI ("day".data) r2
    match unit with
    | none => none
    | some (u, r3) =>
      let withS :=
        match matchCI ("s".data) r3 with
        | some (s, r4) =>
          let w2 := r4.takeWhile isSpace
          let r5 := r4.dropWhile isSpace
          match matchCI ("ago".data) r5 with
          | some (a, _) => some (ds ++ w1 ++ u ++ s ++ w2 ++ a)
          | none => none
        | none => none
      match withS with
      | some m => some m
      | none =>
        let w2 := r3.takeWhile isSpace
        let r5 := r3.dropWhile isSpace
        match matchCI ("ago".data) r5 with
        | some (a, _) => some (ds ++ w1 ++ u ++ w2 ++ a)
        | none => none

/-- The date extraction loop (lines 187-191): the three patterns are tried
in priority order, the first that matches anywhere in the text wins. -/
def searchDate (t : List Char) : Option (List Char) :=
  match searchWith isoAt t with
  | some m => some m
  | none =>
    match searchWith slashAt t with
    | some m => some m
    | none => searchWith relAt t

/-- `re.search(r'swap|trade|exchange', text, re.IGNORECASE)` (line 194). -/
def hasSwapKw (t : List Char) : Bool :=
  containsSubCI ("swap".data) t || containsSubCI ("trade".data) t ||
    containsSubCI ("exchange".data) t

/-! ### The amount+symbol grammar `([\d,]+\.?\d*)\s*(GALA|GUSDC|GWETH|GUSDT)` -/

/-- The symbol alternation, tried in the pattern's written order,
case-insensitively; returns the matched slice (original case) and rest. -/
def matchSymAt (cs : List Char) : Option (List Char × List Char) :=
  match matchCI ['G', 'A', 'L', 'A'] cs with
  | some r => some r
  | none =>
    match matchCI ['G', 'U', 'S', 'D', 'C'] cs with
    | some r => some r
    | none =>
      match matchCI ['G', 'W', 'E', 'T', 'H'] cs with
      | some r => some r
      | none => matchCI ['G', 'U', 'S', 'D', 'T'] cs

/-- The `\.?\d*` tail of the amount group: if a dot follows the `[\d,]+`
run, it and the following digit run are absorbed into the amount. -/
def amtSplit (run1 r1 : List Char) : List Char × List Char :=
  match r1 with
  | c :: rest =>
    if c = '.' then (run1 ++ '.' :: rest.takeWhile isDigitB, rest.dropWhile isDigitB)
    else (run1, c :: rest)
  | [] => (run1, [])

/-- Anchored match of the full amount+symbol pattern.  Returns the amount
group, the symbol group and the rest of the input after the match.  The
greedy-first backtracking of `[\d,]+\.?\d*` collapses to this deterministic
form: giving characters back from any of the three amount pieces leaves the
next character a digit, comma or dot, which can never begin `\s*(GALA|...)`,
so only the maximal-munch parse can succeed. -/
def tokenMatchAt (cs : List Char) : Option (List Char × List Char × List Char) :=
  if (cs.takeWhile isDigitComma).isEmpty then none
  else
    match matchSymAt ((amtSplit (cs.takeWhile isDigitComma) (cs.dropWhile isDigitComma)).2.dropWhile isSpace) with
    | some (s, r4) =>
      some ((amtSplit (cs.takeWhile isDigitComma) (cs.dropWhile isDigitComma)).1, s, r4)
    | none => none

/-- `re.findall` driver: scan left to right, emit each non-overlapping match,
resume after the end of a match.  Fuel is the remaining input length; every
step consumes at least one character, so the fuel never runs out. -/
def tokenFindallGo : Nat → List Char → List (List Char × List Char)
  | 0, _ => []
  | _ + 1, [] => []
  | fuel + 1, c :: cs =>
    match tokenMatchAt (c :: cs) with
    | some (a, s, rest) => (a, s) :: tokenFindallGo fuel rest
    | none => tokenFindallGo fuel cs

/-- `re.findall(r'([\d,]+\.?\d*)\s*(GALA|GUSDC|GWETH|GUSDT)', text, re.IGNORECASE)`
(lines 109 and 198): the list of (amount group, symbol group) pairs. -/
def tokenFindall (cs : List Char) : List (List Char × List Char) :=
  tokenFindallGo cs.length cs

/-- `re.search` of the same pattern (line 109): the leftmost match. -/
def tokenSearch (cs : List Char) : Option (List Char × List Char) :=
  (tokenFindall cs).head?

/-! ### Python `float` on an amount group -/

/-- Numeric value of a digit string. -/
def digitsToNat (ds : List Char) : Nat := ds.foldl (fun a c => a * 10 + (c.toNat - 48)) 0

/-- `float(amount.replace(',', ''))` (lines 111 and 203).  The comma-stripped
group has the shape `digits (. digits)?` with possibly no digits at all;
Python's `float` raises `ValueError` exactly when no digit is present
(`""` or `"."`), modelled as `none`. -/
def parseAmount (s : List Char) : Option ℚ :=
  let t := s.filter (fun c => !(c = ','))
  let ip := t.takeWhile isDigitB
  let rest := t.dropWhile isDigitB
  match rest with
  | [] => if ip.isEmpty then none else some (digitsToNat ip)
  | '.' :: fr =>
    if ip.isEmpty && fr.isEmpty then none
    else if fr.all isDigitB then
      some ((digitsToNat ip : ℚ) + (digitsToNat fr : ℚ) / ((10 : ℚ) ^ fr.length))
    else none
  | _ => none

/-! ### Data model -/

/-- One entry of a record's `tokens` sequence:
`{'amount': float(...), 'symbol': token.upper()}` (lines 202-205). -/
structure Token where
  amount : ℚ
  symbol : List Char
deriving DecidableEq, Repr

/-- A `TransactionRecord`: the sparse dict assembled by
`parse_transaction_element` (absent keys are `none` / `[]`), plus the
`link` field of the link-derived records of `extract_transactions`. -/
structure Tx where
  hash : Option (List Char) := none
  date : Option (List Char) := none
  typ : Option (List Char) := none
  tokens : List Token := []
  link : Option (List Char) := none
deriving DecidableEq, Repr

/-- The balances dict: token symbol → amount, insertion-ordered with
last-write-wins on an existing key (Python `dict` assignment). -/
abbrev Balances := List (List Char × ℚ)

/-- `balances[token] = amount`: overwrite in place if the key exists,
else append. -/
def dictInsert (bal : Balances) (k : List Char) (v : ℚ) : Balances :=
  if bal.any (fun p => p.1 = k) then
    bal.map (fun p => if p.1 = k then (k, v) else p)
  else bal ++ [(k, v)]

/-! ### The browser boundary

A DOM element as the script observes it: reading its rendered text or its
`href` attribute is a remote call that may raise (stale element,
unresolvable attribute); `Except.error ()` models the raise. -/

structure Elem where
  text : Except Unit (List Char)
  href : Except Unit (List Char)
deriving Repr

/-- The rendered page, as the fixed selector queries of the script see it:
the result of `find_elements` for each of the four balance selectors
(line 96), each of the five transaction selectors (line 129), and the
`PARTIAL_LINK_TEXT "0x"` link query (line 150), in the script's order.
`Except.error ()` models a query that raises. -/
structure Driver where
  balResults : List (Except Unit (List Elem))
  selResults : List (Except Unit (List Elem))
  linkResult : Except Unit (List Elem)

/-! ### `parse_transaction_element` (lines 166-214) -/

/-- The per-match body of the token loop (lines 201-205), fused over the
whole `findall` result: Python raises on the first unparseable amount,
which aborts the element (caught by the enclosing `try`). -/
def amountsParse : List (List Char × List Char) → Option (List Token)
  | [] => some []
  | (a, s) :: ms =>
    match parseAmount a with
    | none => none
    | some q =>
      match amountsParse ms with
      | none => none
      | some ts => some ({ amount := q, symbol := upperList s } :: ts)

/-- `parse_transaction_element` on the element's text: empty text → `None`;
otherwise assemble hash/date/type/tokens and return the record only if it
has a hash or a non-empty tokens list; any raise inside (the only possible
one is `float` on an amount group) gives `None`. -/
def parseText (t : List Char) : Option Tx :=
  if t = [] then none
  else
    match amountsParse (tokenFindall t) with
    | none => none
    | some toks =>
      if (searchHash t).isSome || !toks.isEmpty then
        some { hash := searchHash t, date := searchDate t,
               typ := if hasSwapKw t then some ("swap".data) else none,
               tokens := toks, link := none }
      else none

/-- `parse_transaction_element` on an element: `element.text` is read inside
the `try`, so a raise there is also swallowed into `None`. -/
def parseTxElem (e : Elem) : Option Tx :=
  match e.text with
  | .error _ => none
  | .ok t => parseText t

/-! ### `extract_transactions` (lines 124-164) -/

/-- The inner element loop of phase 1 (lines 144-147): parse each element,
append the non-`None` records. -/
def phase1Elems : List Elem → List Tx → List Tx
  | [], acc => acc
  | e :: es, acc =>
    match parseTxElem e with
    | some tx => phase1Elems es (acc ++ [tx])
    | none => phase1Elems es acc

/-- The selector loop of phase 1 (lines 139-147): each selector's
`find_elements` result in turn, capped at 20 elements.  A raising query is
NOT caught anywhere inside `extract_transactions`, so it propagates. -/
def phase1 : List (Except Unit (List Elem)) → List Tx → Except Unit (List Tx)
  | [], acc => .ok acc
  | r :: rs, acc =>
    match r with
    | .error _ => .error ()
    | .ok elems => phase1 rs (phase1Elems (elems.take 20) acc)

/-- A link-derived record (lines 157-161). -/
def linkRec (text href : List Char) : Tx :=
  { hash := some text, link := some href, typ := some ("link".data) }

/-- The link loop of phase 2 (lines 153-161): for each of the first 10
links, read `href` and `text` (either read may raise, uncaught), and if the
destination contains `"transaction"` append a link record. -/
def phase2 : List Elem → List Tx → Except Unit (List Tx)
  | [], acc => .ok acc
  | l :: ls, acc =>
    match l.href with
    | .error _ => .error ()
    | .ok href =>
      match l.text with
      | .error _ => .error ()
      | .ok text =>
        phase2 ls (if containsSub ("transaction".data) href then acc ++ [linkRec text href] else acc)

/-- `extract_transactions`: phase 1 over the five selectors, then the link
phase; the collected list becomes `self.transactions` on success, and any
raise propagates to `run`'s top-level handler. -/
def extractTransactions (d : Driver) : Except Unit (List Tx) :=
  match phase1 d.selResults [] with
  | .error _ => .error ()
  | .ok a =>
    match d.linkResult with
    | .error _ => .error ()
    | .ok links => phase2 (links.take 10) a

/-! ### `extract_wallet_data` (lines 90-122) -/

/-- The per-element body of the balance loop (lines 106-114): read the text
(may raise), `re.search` the amount grammar, and on a match convert the
amount (may raise) and insert it.  A raise escapes to the `try` that wraps
the whole extraction. -/
def balStep (bal : Balances) (e : Elem) : Except Unit Balances :=
  match e.text with
  | .error _ => .error ()
  | .ok t =>
    match tokenSearch t with
    | none => .ok bal
    | some (a, s) =>
      match parseAmount a with
      | none => .error ()
      | some q => .ok (dictInsert bal (upperList s) q)

/-- The element loop for one selector. -/
def balElems : List Elem → Balances → Except Unit Balances
  | [], bal => .ok bal
  | e :: es, bal =>
    match balStep bal e with
    | .error _ => .error ()
    | .ok bal2 => balElems es bal2

/-- The selector loop (lines 104-114); a raising `find_elements` also
escapes to the enclosing `try`. -/
def balSelectors : List (Except Unit (List Elem)) → Balances → Except Unit Balances
  | [], bal => .ok bal
  | r :: rs, bal =>
    match r with
    | .error _ => .error ()
    | .ok elems =>
      match balElems elems bal with
      | .error _ => .error ()
      | .ok bal2 => balSelectors rs bal2

/-- `extract_wallet_data`: the whole loop runs inside one `try`; on any
raise the handler just logs, so `self.balances` is never assigned; it is
also left unassigned when the final dict is empty (line 116).  The result
is the value of the `balances` attribute afterwards (`none` = unset). -/
def extractWalletData (d : Driver) : Option Balances :=
  match balSelectors d.balResults [] with
  | .error _ => none
  | .ok bal => if bal.isEmpty then none else some bal

/-! ### `run` / `save_results` (lines 216-287) -/

/-- The part of the persisted artifact the claims are about. -/
structure Output where
  balances : Balances
  transactions : List Tx
deriving DecidableEq, Repr

/-- The data flow of `run` after a successful `setup_driver`: extraction
runs both extractors; a raise escaping `extract_transactions` is caught by
`run`'s top-level `except`, which logs and falls through (so the process
still exits 0, but `save_results` never ran).  On the normal path
`save_results` persists `getattr(self, 'balances', {})` and
`self.transactions`.  The first component is the process exit status. -/
def runAfterSetup (d : Driver) : Nat × Option Output :=
  let bal := extractWalletData d
  match extractTransactions d with
  | .error _ => (0, none)
  | .ok txs => (0, some { balances := bal.getD [], transactions := txs })

/-- The `__main__` block plus `setup_driver`: fewer than 3 argv entries →
usage message and exit 1; no acquirable browser backend → `sys.exit(1)`
(uncatchable by `run`'s `except Exception`); otherwise `run`. -/
def mainModel (argc : Nat) (setup : Except Unit Driver) : Nat × Option Output :=
  if argc < 3 then (1, none)
  else
    match setup with
    | .error _ => (1, none)
    | .ok d => runAfterSetup d

/-! ### The scroll loop of `scrape_wallet_page` (lines 76-84) -/

/-- The scroll loop: `measure i` is the document height re-measured during
iteration `i` (0-based); `last` is the previous measurement.  Returns the
number of iterations performed (a `break` counts the iteration that
executed it). -/
def scrollGo (measure : Nat → Nat) : Nat → Nat → Nat → Nat
  | 0, _, iters => iters
  | fuel + 1, last, iters =>
    if measure iters = last then iters + 1
    else scrollGo measure fuel (measure iters) (iters + 1)

/-- `for i in range(3)` with the pre-loop height `h0` (line 76). -/
def scrollCount (h0 : Nat) (measure : Nat → Nat) : Nat := scrollGo measure 3 h0 0

/-! ### The control-flow skeleton of `run` (lines 266-287)

`run` wraps `setup_driver(); scrape_wallet_page(); calculate_stats();
save_results()` in `try/except Exception/finally`, the `finally` calling
`self.driver.quit()` when the attribute exists.  The trace records which
phases completed, whether the top-level handler fired, and each release. -/

inductive RunEv
  | acquired
  | loaded
  | extracted
  | reported
  | saved
  | caught
  | released
deriving DecidableEq, BEq, Repr

/-- The body of `run`'s `try`, phase by phase: each flag says whether that
phase raises; the first raise jumps to the `except` handler. -/
def runBody (loadR extractR statsR saveR : Bool) : List RunEv :=
  if loadR then [RunEv.caught]
  else RunEv.loaded ::
    (if extractR then [RunEv.caught]
     else RunEv.extracted ::
       (if statsR then [RunEv.caught]
        else RunEv.reported ::
          (if saveR then [RunEv.caught] else [RunEv.saved])))

/-- The full trace of `run`: if acquisition fails, `setup_driver` exits the
process (the `finally` still runs but `hasattr(self, 'driver')` is false,
so no release); if it succeeds, the body runs and the `finally` releases
the session exactly at the end, on every path. -/
def runTrace (acquireOk loadR extractR statsR saveR : Bool) : List RunEv :=
  if acquireOk then
    RunEv.acquired :: runBody loadR extractR statsR saveR ++ [RunEv.released]
  else []

/-! ### URL construction (lines 56-57) -/

/-- Python `str.replace(old, new)` for a non-empty `old`: scan left to
right, replace each non-overlapping occurrence.  Fuel is the input length;
every step consumes at least one character. -/
def pyReplaceGo (pat rep : List Char) : Nat → List Char → List Char
  | 0, s => s
  | _ + 1, [] => []
  | fuel + 1, c :: cs =>
    if pat.isPrefixOf (c :: cs) then
      rep ++ pyReplaceGo pat rep fuel (List.drop pat.length (c :: cs))
    else c :: pyReplaceGo pat rep fuel cs

/-- Python `str.replace`. -/
def pyReplace (pat rep s : List Char) : List Char := pyReplaceGo pat rep s.length s

/-- `url = f"https://galascan.gala.com/wallet/{encoded_address}"` with
`encoded_address = self.wallet_address.replace('|', '%7C')`. -/
def buildUrl (addr : List Char) : List Char :=
  "https://galascan.gala.com/wallet/".data ++ pyReplace ("|".data) ("%7C".data) addr

/-- Spec-side definition, written from the spec's words for the refinement
claim: "the address with every occurrence of the pipe character replaced by
%7C and every other character passed through unchanged". -/
def specEncodePipe : List Char → List Char
  | [] => []
  | c :: cs => (if c = '|' then "%7C".data else [c]) ++ specEncodePipe cs

/-! ### Helper lemmas -/

/-- A hex digit is never ASCII whitespace. -/
lemma isSpace_false_of_hex (c : Char) (h : isHexDigit c = true) : isSpace c = false := by
  simp only [isHexDigit, Bool.or_eq_true, Bool.and_eq_true, decide_eq_true_eq] at h
  cases hsp : isSpace c
  · rfl
  · exfalso
    simp only [isSpace, Bool.or_eq_true, Bool.and_eq_true, beq_iff_eq, decide_eq_true_eq] at hsp
    omega

/-- A hex digit never compares case-insensitively equal to `'G'`. -/
lemma eqCI_G_of_hex (c : Char) (h : isHexDigit c = true) : eqCI 'G' c = false := by
  simp only [isHexDigit, Bool.or_eq_true, Bool.and_eq_true, decide_eq_true_eq] at h
  cases heq : eqCI 'G' c
  · rfl
  · exfalso
    simp only [eqCI, beq_iff_eq] at heq
    rw [show lowerN 'G' = 103 from rfl] at heq
    simp only [lowerN] at heq
    split at heq
    · rename_i h3
      simp only [Bool.and_eq_true, decide_eq_true_eq] at h3
      omega
    · omega

/-- `all` survives `dropWhile`. -/
lemma all_dropWhile (p q : Char → Bool) :
    ∀ cs : List Char, cs.all p = true → ((cs.dropWhile q).all p) = true := by
  intro cs
  induction cs with
  | nil => intro h; exact h
  | cons c cs ih =>
    intro h
    simp only [List.all_cons, Bool.and_eq_true] at h
    by_cases hq : q c
    · simpa [List.dropWhile_cons, hq] using ih h.2
    · simp [List.dropWhile_cons, hq, List.all_cons, h.1, h.2]

/-- On all-hex input the symbol alternation can never match (no hex digit
lowercases to `g`). -/
lemma matchSymAt_none_of_hex : ∀ cs : List Char, cs.all isHexDigit = true →
    matchSymAt cs = none
  | [], _ => rfl
  | c :: cs, h => by
    have hc : isHexDigit c = true := by
      simp only [List.all_cons, Bool.and_eq_true] at h
      exact h.1
    have he := eqCI_G_of_hex c hc
    simp [matchSymAt, matchCI, he]

/-- On all-hex input the `\.?\d*` tail absorbs nothing (no dot present). -/
lemma amtSplit_of_hex (run1 : List Char) :
    ∀ r1 : List Char, r1.all isHexDigit = true → amtSplit run1 r1 = (run1, r1)
  | [], _ => rfl
  | c :: rest, h => by
    have hc : isHexDigit c = true := by
      simp only [List.all_cons, Bool.and_eq_true] at h
      exact h.1
    have hne : ¬(c = '.') := by
      intro he
      rw [he] at hc
      cases hc
    rw [amtSplit, if_neg hne]

/-- `dropWhile isSpace` is the identity on all-hex input. -/
lemma dropWhile_space_of_hex :
    ∀ cs : List Char, cs.all isHexDigit = true → cs.dropWhile isSpace = cs
  | [], _ => rfl
  | c :: cs, h => by
    have hc : isHexDigit c = true := by
      simp only [List.all_cons, Bool.and_eq_true] at h
      exact h.1
    simp [List.dropWhile_cons, isSpace_false_of_hex c hc]

/-- The amount+symbol pattern never matches anywhere in all-hex text. -/
lemma tokenMatchAt_none_of_hex (cs : List Char) (h : cs.all isHexDigit = true) :
    tokenMatchAt cs = none := by
  have hr1 := all_dropWhile isHexDigit isDigitComma cs h
  rw [tokenMatchAt]
  by_cases h0 : (cs.takeWhile isDigitComma).isEmpty = true
  · rw [if_pos h0]
  · rw [if_neg h0, amtSplit_of_hex _ _ hr1]
    rw [show ((cs.takeWhile isDigitComma, cs.dropWhile isDigitComma)).2 = cs.dropWhile isDigitComma from rfl]
    rw [dropWhile_space_of_hex _ hr1, matchSymAt_none_of_hex _ hr1]

/-- `findall` of the amount+symbol pattern on all-hex text is empty. -/
lemma tokenFindallGo_all_hex : ∀ (fuel : Nat) (cs : List Char),
    cs.all isHexDigit = true → tokenFindallGo fuel cs = []
  | 0, _, _ => rfl
  | _ + 1, [], _ => rfl
  | fuel + 1, c :: cs, h => by
    rw [tokenFindallGo, tokenMatchAt_none_of_hex _ h]
    exact tokenFindallGo_all_hex fuel cs (by
      simp only [List.all_cons, Bool.and_eq_true] at h
      exact h.2)

/-- An anchored hash match always has the 0x-plus-64-hex shape. -/
lemma hashAt_format : ∀ cs r : List Char, hashAt cs = some r → isHashFormat r = true := by
  intro cs r h
  unfold hashAt at h
  split at h
  · rename_i rest
    split at h
    · rename_i hc
      cases h
      simpa [isHashFormat] using hc
    · cases h
  · cases h

/-- `re.search` only returns what its anchored matcher can produce. -/
lemma searchWith_prop (m : List Char → Option (List Char)) (p : List Char → Prop)
    (hm : ∀ cs r, m cs = some r → p r) :
    ∀ t r, searchWith m t = some r → p r := by
  intro t
  induction t with
  | nil => intro r h; simp [searchWith] at h
  | cons c cs ih =>
    intro r h
    rw [searchWith] at h
    cases hm2 : m (c :: cs) with
    | some r2 =>
      rw [hm2] at h
      cases h
      exact hm _ _ hm2
    | none =>
      rw [hm2] at h
      exact ih r h

/-- Any hash found by `re.search(r'0x[a-fA-F0-9]{64}', ...)` has the
0x-plus-64-hex shape. -/
lemma searchHash_format (t r : List Char) (h : searchHash t = some r) :
    isHashFormat r = true :=
  searchWith_prop hashAt (fun r2 => isHashFormat r2 = true) hashAt_format t r h

/-- A successful token-amount conversion pass preserves the match count. -/
lemma amountsParse_length : ∀ (ms : List (List Char × List Char)) (toks : List Token),
    amountsParse ms = some toks → toks.length = ms.length
  | [], toks, h => by
    simp only [amountsParse] at h
    cases h
    rfl
  | (a, s) :: ms, toks, h => by
    simp only [amountsParse] at h
    cases hp : parseAmount a with
    | none => rw [hp] at h; cases h
    | some q =>
      rw [hp] at h
      cases hr : amountsParse ms with
      | none => rw [hr] at h; cases h
      | some ts =>
        rw [hr] at h
        cases h
        simp [amountsParse_length ms ts hr]

/-- If every selector query succeeds, phase 1 of `extract_transactions`
succeeds (element parse failures inside are swallowed by
`parse_transaction_element`). -/
lemma phase1_ok : ∀ (rs : List (Except Unit (List Elem))) (acc : List Tx),
    (∀ r ∈ rs, ∃ l, r = Except.ok l) → ∃ a, phase1 rs acc = Except.ok a
  | [], acc, _ => ⟨acc, rfl⟩
  | r :: rs, acc, h => by
    obtain ⟨l, hl⟩ := h r (by simp)
    subst hl
    simp only [phase1]
    exact phase1_ok rs _ (fun r2 hr => h r2 (by simp [hr]))

/-- If every considered link's attribute reads succeed, the link phase of
`extract_transactions` succeeds. -/
lemma phase2_ok : ∀ (ls : List Elem) (acc : List Tx),
    (∀ l ∈ ls, (∃ h2, l.href = Except.ok h2) ∧ (∃ t2, l.text = Except.ok t2)) →
    ∃ a, phase2 ls acc = Except.ok a
  | [], acc, _ => ⟨acc, rfl⟩
  | l :: ls, acc, h => by
    obtain ⟨⟨hh, hhl⟩, ⟨tt, htl⟩⟩ := h l (by simp)
    simp only [phase2, hhl, htl]
    exact phase2_ok ls _ (fun e he => h e (by simp [he]))

/-- Balance selectors that all match nothing leave the dict unchanged. -/
lemma balSelectors_all_empty : ∀ (rs : List (Except Unit (List Elem))) (bal : Balances),
    (∀ r ∈ rs, r = Except.ok []) → balSelectors rs bal = Except.ok bal
  | [], _, _ => rfl
  | r :: rs, bal, h => by
    have hr := h r (by simp)
    subst hr
    simp only [balSelectors, balElems]
    exact balSelectors_all_empty rs bal (fun r2 hr2 => h r2 (by simp [hr2]))

/-- Transaction selectors that all match nothing contribute no records. -/
lemma phase1_all_empty : ∀ (rs : List (Except Unit (List Elem))) (acc : List Tx),
    (∀ r ∈ rs, r = Except.ok []) → phase1 rs acc = Except.ok acc
  | [], _, _ => rfl
  | r :: rs, acc, h => by
    have hr := h r (by simp)
    subst hr
    simp only [phase1, List.take_nil, phase1Elems]
    exact phase1_all_empty rs acc (fun r2 hr2 => h r2 (by simp [hr2]))

/-- The scroll loop performs at most `fuel` more iterations. -/
lemma scrollGo_le (measure : Nat → Nat) :
    ∀ (fuel last iters : Nat), scrollGo measure fuel last iters ≤ iters + fuel
  | 0, _, iters => by simp [scrollGo]
  | fuel + 1, last, iters => by
    rw [scrollGo]
    split
    · omega
    · exact le_trans (scrollGo_le measure fuel _ (iters + 1)) (by omega)

/-- `str.replace('|', '%7C')` is the character-wise pipe encoding. -/
lemma pyReplaceGo_pipe : ∀ (s : List Char) (fuel : Nat), s.length ≤ fuel →
    pyReplaceGo ("|".data) ("%7C".data) fuel s = specEncodePipe s
  | [], fuel, _ => by cases fuel <;> rfl
  | c :: cs, fuel, h => by
    cases fuel with
    | zero => simp at h
    | succ fuel =>
      have hlen : cs.length ≤ fuel := by
        simp only [List.length_cons] at h
        omega
      show pyReplaceGo ['|'] ['%', '7', 'C'] (fuel + 1) (c :: cs) = specEncodePipe (c :: cs)
      rw [pyReplaceGo]
      by_cases hc : c = '|'
      · subst hc
        rw [if_pos (by simp [List.isPrefixOf])]
        show ['%', '7', 'C'] ++ pyReplaceGo ['|'] ['%', '7', 'C'] fuel cs = _
        rw [show pyReplaceGo ['|'] ['%', '7', 'C'] fuel cs =
              pyReplaceGo ("|".data) ("%7C".data) fuel cs from rfl]
        rw [pyReplaceGo_pipe cs fuel hlen, specEncodePipe]
        simp
      · rw [if_neg (by simp [List.isPrefixOf]; exact fun he => hc he.symm)]
        rw [show pyReplaceGo ['|'] ['%', '7', 'C'] fuel cs =
              pyReplaceGo ("|".data) ("%7C".data) fuel cs from rfl]
        rw [pyReplaceGo_pipe cs fuel hlen, specEncodePipe]
        simp [hc]

/-! ### Claim theorems -/

/-- C2: for every run in which a browser session is successfully acquired
(first argument of `runTrace` is `true`), the session release is invoked
exactly once, whichever of load, extraction, reporting or persistence
completes normally or raises: the trace contains exactly one
`RunEv.released` event on all sixteen outcome combinations. -/
theorem c2_release_exactly_once (loadR extractR statsR saveR : Bool) :
    (runTrace true loadR extractR statsR saveR).count RunEv.released = 1 := by
  cases loadR <;> cases extractR <;> cases statsR <;> cases saveR <;> rfl

/-- C6: the scroll loop of the Page Loader performs at most 3 iterations,
and if the height measured during iteration 1 equals the height measured
before the loop it performs exactly 1 iteration (iterations 2 and 3 are
skipped). -/
theorem c6_scroll_bounded_early_exit (h0 : Nat) (measure : Nat → Nat) :
    scrollCount h0 measure ≤ 3 ∧ (measure 0 = h0 → scrollCount h0 measure = 1) := by
  constructor
  · have h := scrollGo_le measure 3 h0 0
    simpa [scrollCount] using h
  · intro h
    rw [scrollCount, show (3 : Nat) = 2 + 1 from rfl, scrollGo, if_pos h]

/-- Witness for C6: with a stable height the loop runs exactly once, which
is within the 3-iteration budget. -/
theorem c6_witness : scrollCount 7 (fun _ => 7) ≤ 3 ∧ scrollCount 7 (fun _ => 7) = 1 :=
  ⟨(c6_scroll_bounded_early_exit 7 (fun _ => 7)).1,
   (c6_scroll_bounded_early_exit 7 (fun _ => 7)).2 rfl⟩

/-- C8: the navigation URL is the fixed base path followed by the wallet
address with every `'|'` replaced by `"%7C"` and every other character
passed through unchanged (`specEncodePipe` is that spec-side description). -/
theorem c8_url_pipe_encoding (addr : List Char) :
    buildUrl addr = "https://galascan.gala.com/wallet/".data ++ specEncodePipe addr := by
  rw [buildUrl, pyReplace, pyReplaceGo_pipe addr addr.length le_rfl]

/-- C7: a run whose balance selectors, transaction selectors and link query
all match nothing completes with exit status 0 and persists an empty
balances mapping and an empty transactions sequence. -/
theorem c7_empty_page_run (d : Driver)
    (hb : ∀ r ∈ d.balResults, r = Except.ok [])
    (hs : ∀ r ∈ d.selResults, r = Except.ok [])
    (hl : d.linkResult = Except.ok []) :
    mainModel 3 (Except.ok d) = (0, some { balances := [], transactions := [] }) := by
  have h1 : extractWalletData d = none := by
    rw [extractWalletData, balSelectors_all_empty _ _ hb]
    rfl
  have h2 : extractTransactions d = Except.ok [] := by
    rw [extractTransactions, phase1_all_empty _ _ hs, hl]
    rfl
  rw [mainModel, if_neg (by omega)]
  simp [runAfterSetup, h1, h2]

def c7Driver : Driver :=
  { balResults := [Except.ok [], Except.ok [], Except.ok [], Except.ok []],
    selResults := [Except.ok [], Except.ok [], Except.ok [], Except.ok [], Except.ok []],
    linkResult := Except.ok [] }

/-- Witness for C7: the concrete all-empty page. -/
theorem c7_witness :
    mainModel 3 (Except.ok c7Driver) = (0, some { balances := [], transactions := [] }) :=
  c7_empty_page_run c7Driver
    (by intro r hr; fin_cases hr <;> rfl)
    (by intro r hr; fin_cases hr <;> rfl)
    rfl

/-- C9: if reading or parsing any single balance element raises (for
example the numeric conversion of an all-comma amount group), the whole
balance extraction is abandoned: the rest of the element list is skipped,
and whatever the run's selector loop had accumulated is discarded because
`self.balances` is never assigned, so the persisted balances are empty;
the run itself continues (the transaction phase still runs and the run
still exits 0). -/
theorem c9_balance_parse_failure_abandons_all (bal : Balances) (e : Elem) (post : List Elem)
    (hfail : balStep bal e = Except.error ()) :
    balElems (e :: post) bal = Except.error () ∧
    ∀ d : Driver, balSelectors d.balResults [] = Except.error () →
      extractWalletData d = none ∧
      ∀ txs, extractTransactions d = Except.ok txs →
        runAfterSetup d = (0, some { balances := [], transactions := txs }) := by
  constructor
  · rw [balElems, hfail]
  · intro d hd
    constructor
    · rw [extractWalletData, hd]
    · intro txs htx
      simp [runAfterSetup, extractWalletData, hd, htx]

def c9BalPre : Balances := [("GALA".data, 5)]

def c9BadElem : Elem := { text := Except.ok (", GALA".data), href := Except.ok [] }

def c9Driver : Driver :=
  { balResults := [Except.ok [{ text := Except.ok ("5 GALA".data), href := Except.ok [] }],
                   Except.ok [c9BadElem], Except.ok [], Except.ok []],
    selResults := [Except.ok [], Except.ok [], Except.ok [], Except.ok [], Except.ok []],
    linkResult := Except.ok [] }

/-- Witness for C9: the element text `", GALA"` matches the amount grammar
with amount group `","`, whose numeric conversion raises; an earlier
selector had already recorded `GALA = 5`, yet the run records no balances
at all and still completes with exit status 0. -/
theorem c9_witness :
    balElems [c9BadElem] c9BalPre = Except.error () ∧
    extractWalletData c9Driver = none ∧
    runAfterSetup c9Driver = (0, some { balances := [], transactions := [] }) := by
  obtain ⟨h1, h2⟩ := c9_balance_parse_failure_abandons_all c9BalPre c9BadElem [] rfl
  have h3 := h2 c9Driver rfl
  exact ⟨h1, h3.1, h3.2 [] rfl⟩

def c1GoodElem : Elem :=
  { text := Except.ok ('0' :: 'x' :: List.replicate 64 'a'), href := Except.ok [] }

def c1BadDriver : Driver :=
  { balResults := [Except.ok [], Except.ok [], Except.ok [], Except.ok []],
    selResults := [Except.error (), Except.ok [c1GoodElem], Except.ok [], Except.ok [],
                   Except.ok []],
    linkResult := Except.ok [] }

/-- C1 counterexample: a transaction selector query that raises is NOT
tolerated by `extract_transactions` — there is no `try/except` around the
selector loop — so the whole extraction aborts even though a later selector
held a perfectly parseable record; the raise escapes to `run`'s top-level
handler. -/
theorem c1_counterexample : extractTransactions c1BadDriver = Except.error () := rfl

/-- C1 amended: exceptions raised while parsing a single element (including
reading its text) are swallowed by `parse_transaction_element` — such an
element contributes zero records and extraction continues — and when every
selector query and every considered link attribute read succeeds, the
extraction as a whole succeeds; but a raising selector or link query is not
caught inside `extract_transactions` (see the counterexample). -/
theorem c1_amended (e : Elem) (es : List Elem) (acc : List Tx)
    (he : e.text = Except.error ()) :
    parseTxElem e = none ∧
    phase1Elems (e :: es) acc = phase1Elems es acc ∧
    ∀ d : Driver,
      (∀ r ∈ d.selResults, ∃ l, r = Except.ok l) →
      (∀ links, d.linkResult = Except.ok links →
        ∀ l ∈ links.take 10, (∃ h2, l.href = Except.ok h2) ∧ (∃ t2, l.text = Except.ok t2)) →
      (∃ links, d.linkResult = Except.ok links) →
      ∃ txs, extractTransactions d = Except.ok txs := by
  have hp : parseTxElem e = none := by rw [parseTxElem, he]
  refine ⟨hp, ?_, ?_⟩
  · rw [phase1Elems, hp]
  · intro d hsel hlink hex
    obtain ⟨links, hl⟩ := hex
    obtain ⟨a, ha⟩ := phase1_ok d.selResults [] hsel
    obtain ⟨b, hb⟩ := phase2_ok (links.take 10) a (hlink links hl)
    refine ⟨b, ?_⟩
    rw [extractTransactions, ha, hl]
    exact hb

def c1WitElem : Elem := { text := Except.error (), href := Except.ok [] }

def c1WitDriver : Driver :=
  { balResults := [Except.ok [], Except.ok [], Except.ok [], Except.ok []],
    selResults := [Except.ok [c1WitElem], Except.ok [], Except.ok [], Except.ok [],
                   Except.ok []],
    linkResult := Except.ok [] }

/-- Witness for the amended C1: an element whose text read raises is
silently dropped and the extraction still succeeds. -/
theorem c1_witness :
    parseTxElem c1WitElem = none ∧
    phase1Elems [c1WitElem] [] = phase1Elems [] [] ∧
    ∃ txs, extractTransactions c1WitDriver = Except.ok txs := by
  obtain ⟨h1, h2, h3⟩ := c1_amended c1WitElem [] [] rfl
  refine ⟨h1, h2, h3 c1WitDriver ?_ ?_ ⟨[], rfl⟩⟩
  · intro r hr
    fin_cases hr <;> exact ⟨_, rfl⟩
  · intro links hl
    cases hl
    intro l hl2
    simp at hl2

def c3LinkElem : Elem :=
  { text := Except.ok ("0xdead".data),
    href := Except.ok ("https://galascan.gala.com/transaction/0xdead".data) }

def c3Driver : Driver :=
  { balResults := [Except.ok [], Except.ok [], Except.ok [], Except.ok []],
    selResults := [Except.ok [], Except.ok [], Except.ok [], Except.ok [], Except.ok []],
    linkResult := Except.ok [c3LinkElem] }

/-- C3 counterexample: a link-derived record is retained with `hash` set to
the link's visible text, which only has to CONTAIN `"0x"` (partial link
text match); here the retained hash `"0xdead"` is not `"0x"` followed by 64
hex digits, refuting the claim for link-derived records. -/
theorem c3_counterexample :
    extractTransactions c3Driver =
      Except.ok [linkRec ("0xdead".data)
        ("https://galascan.gala.com/transaction/0xdead".data)] ∧
    isHashFormat ("0xdead".data) = false := ⟨rfl, rfl⟩

/-- C3 amended: every record produced by the element-parsing phase that has
a hash field carries a value of the form `"0x"` plus exactly 64 hex digits
(the regex can only capture that shape); link-derived records carry the
link text verbatim with no such guarantee. -/
theorem c3_amended (t : List Char) (tx : Tx) (h : List Char)
    (hp : parseText t = some tx) (hh : tx.hash = some h) : isHashFormat h = true := by
  rw [parseText] at hp
  split at hp
  · cases hp
  · cases ha : amountsParse (tokenFindall t) with
    | none => rw [ha] at hp; cases hp
    | some toks =>
      rw [ha] at hp
      have hp2 : (if ((searchHash t).isSome || !toks.isEmpty) = true then
          some { hash := searchHash t, date := searchDate t,
                 typ := if hasSwapKw t = true then some ("swap".data) else none,
                 tokens := toks, link := none }
          else none) = some tx := hp
      by_cases hc : ((searchHash t).isSome || !toks.isEmpty) = true
      · rw [if_pos hc] at hp2
        cases hp2
        exact searchHash_format t h hh
      · rw [if_neg hc] at hp2
        cases hp2

/-- Witness for the amended C3: a parsed element whose hash field is set
indeed carries a 66-character `0x`-prefixed hex string. -/
theorem c3_witness : isHashFormat ('0' :: 'x' :: List.replicate 64 'a') = true :=
  c3_amended ('0' :: 'x' :: List.replicate 64 'a')
    { hash := some ('0' :: 'x' :: List.replicate 64 'a'), date := none, typ := none,
      tokens := [], link := none }
    ('0' :: 'x' :: List.replicate 64 'a') rfl rfl

/-- C10: the amount+symbol grammar requires no word boundary after the
symbol, so a known symbol occurring as a proper prefix of a longer word
still matches: for every continuation of the text `"10 GALA"`, the first
match of the grammar (used by both the Balance Extractor via `re.search`
and the Transaction Element Parser via `re.findall`) has amount group
`"10"` and symbol group `"GALA"`; in particular `"10 GALAXY"` yields
exactly the token entry `{amount: 10, symbol: "GALA"}`. -/
theorem c10_symbol_prefix_match :
    (∀ tail : List Char,
      (tokenFindall ('1' :: '0' :: ' ' :: 'G' :: 'A' :: 'L' :: 'A' :: tail)).head? =
        some ("10".data, "GALA".data)) ∧
    tokenSearch ("10 GALAXY".data) = some ("10".data, "GALA".data) ∧
    amountsParse (tokenFindall ("10 GALAXY".data)) =
      some [{ amount := 10, symbol := "GALA".data }] :=
  ⟨fun _ => rfl, rfl, rfl⟩

def c4Text : List Char := '0' :: 'x' :: (List.replicate 64 'a' ++ " ,GALA".data)

/-- C4 counterexample: on a text containing a valid hash followed by
`" ,GALA"`, the amount grammar matches with amount group `","`, whose
numeric conversion raises inside the parser's `try`, so
`parse_transaction_element` returns `None` even though the assembled record
would have a hash — refuting the claimed "if and only if". -/
theorem c4_counterexample :
    parseText c4Text = none ∧ (searchHash c4Text).isSome = true := ⟨rfl, rfl⟩

/-- C4 amended: the parser returns a record if and only if every matched
token amount converts without raising AND the record has a hash or a
non-empty tokens sequence; in particular a text with only a date and/or a
type keyword (no hash, no token match) still yields none, since an empty
match list converts trivially and the disjunction fails. -/
theorem c4_amended (t : List Char) :
    (parseText t).isSome = true ↔
      ((amountsParse (tokenFindall t)).isSome = true ∧
        ((searchHash t).isSome = true ∨ tokenFindall t ≠ [])) := by
  by_cases ht : t = []
  · subst ht
    decide
  · rw [parseText, if_neg ht]
    cases ha : amountsParse (tokenFindall t) with
    | none => simp [ha]
    | some toks =>
      have hlen := amountsParse_length _ _ ha
      simp only [ha, Option.isSome_some, true_and]
      by_cases hc : ((searchHash t).isSome || !toks.isEmpty) = true
      · rw [if_pos hc]
        simp only [Option.isSome_some, true_iff]
        have hc3 : (searchHash t).isSome = true ∨ (!toks.isEmpty) = true := by
          simpa [Bool.or_eq_true] using hc
        rcases hc3 with h1 | h1
        · exact Or.inl h1
        · right
          intro hnil
          rw [hnil] at hlen
          simp only [List.length_nil] at hlen
          rw [List.length_eq_zero] at hlen
          rw [hlen] at h1
          simp at h1
      · rw [if_neg hc]
        have hc2 : ((searchHash t).isSome || !toks.isEmpty) = false := by
          cases h3 : ((searchHash t).isSome || !toks.isEmpty)
          · rfl
          · exact absurd h3 hc
        rw [Bool.or_eq_false_iff] at hc2
        obtain ⟨h1, h2⟩ := hc2
        have h4 : toks = [] := by
          cases toks with
          | nil => rfl
          | cons a l => simp [List.isEmpty] at h2
        constructor
        · intro h5
          simp at h5
        · rintro (h5 | h5)
          · rw [h1] at h5
            cases h5
          · apply absurd _ h5
            rw [h4] at hlen
            simp only [List.length_nil] at hlen
            rw [eq_comm, List.length_eq_zero] at hlen
            exact hlen

/-- C5: on `"Swap 10 GALA for 5 GUSDC on 2025-09-20, tx 0x"` followed by
any 64 hex digits, the parser returns a record with type `"swap"`, date
`"2025-09-20"`, the hash set to that `0x`-prefixed string, and tokens
`[{amount: 10, symbol: "GALA"}, {amount: 5, symbol: "GUSDC"}]` in
left-to-right order of appearance. -/
theorem c5_swap_parse (hs : List Char) (h1 : hs.length = 64) (h2 : hs.all isHexDigit = true) :
    parseText ("Swap 10 GALA for 5 GUSDC on 2025-09-20, tx 0x".data ++ hs) =
      some { hash := some ('0' :: 'x' :: hs), date := some ("2025-09-20".data),
             typ := some ("swap".data),
             tokens := [{ amount := 10, symbol := "GALA".data },
                        { amount := 5, symbol := "GUSDC".data }],
             link := none } := by
  have htake : hs.take 64 = hs := by
    rw [← h1]
    exact List.take_length hs
  have hhash : searchHash ("Swap 10 GALA for 5 GUSDC on 2025-09-20, tx 0x".data ++ hs) =
      some ('0' :: 'x' :: hs) := by
    have e1 : searchHash ("Swap 10 GALA for 5 GUSDC on 2025-09-20, tx 0x".data ++ hs) =
        (match hashAt ('0' :: 'x' :: hs) with
         | some r => some r
         | none => searchWith hashAt ('x' :: hs)) := rfl
    have e2 : hashAt ('0' :: 'x' :: hs) = some ('0' :: 'x' :: hs) := by
      show (if ((hs.take 64).length == 64) && (hs.take 64).all isHexDigit then
              some ('0' :: 'x' :: hs.take 64) else none) = some ('0' :: 'x' :: hs)
      rw [htake, h1, h2]
      simp
    rw [e1, e2]
  have hdate : searchDate ("Swap 10 GALA for 5 GUSDC on 2025-09-20, tx 0x".data ++ hs) =
      some ("2025-09-20".data) := rfl
  have hswap : hasSwapKw ("Swap 10 GALA for 5 GUSDC on 2025-09-20, tx 0x".data ++ hs) =
      true := rfl
  have hfind : tokenFindall ("Swap 10 GALA for 5 GUSDC on 2025-09-20, tx 0x".data ++ hs) =
      [("10".data, "GALA".data), ("5".data, "GUSDC".data)] := by
    have e3 : tokenFindall ("Swap 10 GALA for 5 GUSDC on 2025-09-20, tx 0x".data ++ hs) =
        ("10".data, "GALA".data) :: ("5".data, "GUSDC".data) ::
          tokenFindallGo (hs.length + 12) hs := rfl
    rw [e3, tokenFindallGo_all_hex _ _ h2]
  have hne : ¬("Swap 10 GALA for 5 GUSDC on 2025-09-20, tx 0x".data ++ hs = []) := by
    intro hX
    have hlen2 := congrArg List.length hX
    rw [List.length_append,
        show ("Swap 10 GALA for 5 GUSDC on 2025-09-20, tx 0x".data).length = 45 from rfl] at hlen2
    simp at hlen2
  have hamounts : amountsParse [("10".data, "GALA".data), ("5".data, "GUSDC".data)] =
      some [{ amount := (10 : ℚ), symbol := "GALA".data },
            { amount := (5 : ℚ), symbol := "GUSDC".data }] := rfl
  rw [parseText, if_neg hne, hfind, hamounts, hhash, hdate, hswap]
  simp

/-- Witness for C5: the concrete 64-hex-digit instantiation. -/
theorem c5_witness :
    parseText ("Swap 10 GALA for 5 GUSDC on 2025-09-20, tx 0x".data ++ List.replicate 64 'a') =
      some { hash := some ('0' :: 'x' :: List.replicate 64 'a'),
             date := some ("2025-09-20".data), typ := some ("swap".data),
             tokens := [{ amount := 10, symbol := "GALA".data },
                        { amount := 5, symbol := "GUSDC".data }],
             link := none } :=
  c5_swap_parse (List.replicate 64 'a') (by simp) (by decide)
